import Mathlib

/-!
# Verification of the WIBL `ParamStore` key-value store

Shallow embedding of `src/LoggerFirmware/LoggerFirmware/ParamStore.cpp`.

The file has two mutually exclusive backends behind the `ParamStore` base
class, whose `SetKey` and `GetKey` are pure delegations to the private
`set_key` and `get_key` of the active backend:

* `SPIFSParamStore` (ESP32): one file per key, path `/<key>.par`, whose
  whole contents is the value.  `set_key` opens the file for writing
  (creating or truncating it), prints the value and closes; if the open
  fails it returns `false` before touching the file.  `get_key` opens for
  reading; on failure it clears the output value and returns `false`,
  otherwise it reads the whole file into the output value.
* `BLEParamStore` (SAM3X8E): five fixed slots in the radio module NVM.
  `match_key` maps the five recognised names to indices 0..4 and
  everything else to -1.  `set_key` truncates the value to
  `max_nvm_string_length` (28) bytes, then writes a 4-byte length field at
  `(sizeof(int) + max_nvm_string_length) * refnum` and the bytes at that
  address + 4.  `get_key` reads the length field, reads that many bytes
  into a local `uint8_t buffer[29]`, writes a NUL terminator at
  `buffer[length]` and builds the result with the C-string `String`
  constructor (which stops at the first NUL byte).

Modelling choices, all read off the source:

* Arduino `String` values are byte lists (`List Nat`); the NVM stores
  bytes, so a byte write reduces modulo 256 (`uint8_t`).
* The NVM is modelled with the addressed length fields (`writeNVM(addr,
  int)` / `readNVM(addr, int32_t*)`) separated from the addressed data
  bytes (`writeNVM(addr, buf, len)` / `readNVM(addr, buf, len)`): the two
  overloads of the Adafruit API never alias in this code (length fields
  live at multiples of 32, data at offsets 4..31 past them).
* `SPIFFS.open(..., FILE_WRITE)` can fail; the model takes that outcome as
  an explicit `openOk : Bool` oracle argument.
* `BLEParamStore::get_key` performs an unchecked buffer access when the
  stored length field is outside 0..28 (`readNVM` of that many bytes into
  the 29-byte buffer, then `buffer[length] = 0`): the model returns `none`
  for those out-of-bounds accesses, and `some` of the C++ result when
  every access is within the local buffer.
-/

namespace ParamStoreModel

/-- Arduino `String` values, modelled as lists of bytes. -/
abbrev Value := List Nat

/-! ## SPIFFS (filesystem) backend -/

/-- The SPIFFS filesystem state: a partial map from paths to file contents. -/
structure SPIFFS where
  files : String → Option Value

/-- The path used by both operations: `String("/") + key + ".par"`. -/
def paramPath (key : String) : String := "/" ++ key ++ ".par"

/-- A fresh (just formatted) filesystem with no files. -/
def emptyFS : SPIFFS := ⟨fun _ => none⟩

namespace SPIFSParamStore

/-- `SPIFSParamStore::set_key`: open `/<key>.par` with `FILE_WRITE`
(create or truncate); on open failure print an error and return `false`
with the filesystem untouched; otherwise print the value into the file,
close, and return `true`.  `openOk` is the outcome of `SPIFFS.open`. -/
def set_key (key : String) (value : Value) (openOk : Bool) (fs : SPIFFS) :
    Bool × SPIFFS :=
  if openOk then
    (true, ⟨fun p => if p = paramPath key then some value else fs.files p⟩)
  else
    (false, fs)

/-- `SPIFSParamStore::get_key`: open `/<key>.par` with `FILE_READ`; if the
file does not exist, set `value = ""` and return `false`; otherwise
`value = f.readString()` (the whole contents) and return `true`.  The
`out` argument is the previous contents of the output parameter. -/
def get_key (key : String) (fs : SPIFFS) (out : Value) : Bool × Value :=
  match fs.files (paramPath key) with
  | none => (false, [])
  | some content => (true, content)

end SPIFSParamStore

/-! ## BLE (slot NVM) backend -/

/-- The BLE module NVM state.  `lenField a` is the `int` written by
`ble.writeNVM(a, int)` and read by `ble.readNVM(a, int32_t*)`;
`byte a` is the data byte at address `a` written by the buffer overload.
In `ParamStore.cpp` the two overloads are used on disjoint addresses. -/
structure NVM where
  lenField : Nat → Int
  byte : Nat → Nat

/-- A zeroed NVM. -/
def initNVM : NVM := ⟨fun _ => 0, fun _ => 0⟩

/-- `ble.writeNVM(addr, v)`: store the integer `v` at `addr`. -/
def writeLenNVM (nvm : NVM) (addr : Nat) (v : Int) : NVM :=
  { nvm with lenField := fun a => if a = addr then v else nvm.lenField a }

/-- `ble.writeNVM(addr, buf, buf.length)`: store the bytes of `bs` at
addresses `addr`, `addr+1`, ....  Each byte is a `uint8_t`. -/
def writeBytesNVM (nvm : NVM) (addr : Nat) (bs : Value) : NVM :=
  { nvm with byte := fun a =>
      if addr ≤ a ∧ a - addr < bs.length then bs.getD (a - addr) 0 % 256
      else nvm.byte a }

/-- `ble.readNVM(addr, buf, n)`: the `n` bytes at `addr`, `addr+1`, .... -/
def readBytesNVM (nvm : NVM) (addr : Nat) (n : Nat) : Value :=
  (List.range n).map fun i => nvm.byte (addr + i)

namespace BLEParamStore

/-- `const int max_nvm_string_length = 28`. -/
def max_nvm_string_length : Nat := 28

/-- `BLEParamStore::match_key`: exact string match of the five recognised
key names to slot indices 0..4, with -1 for everything else. -/
def match_key (key : String) : Int :=
  if key = "idstring" then 0
  else if key = "adname" then 1
  else if key = "ssid" then 2
  else if key = "password" then 3
  else if key = "ipaddress" then 4
  else -1

/-- The address expression in `set_key`:
`(sizeof(int) + max_nvm_string_length) * refnum` with `sizeof(int) = 4`
on the SAM3X8E target. -/
def setAddress (refnum : Nat) : Nat := (4 + max_nvm_string_length) * refnum

/-- The address expression in `get_key`: textually the same expression
`(sizeof(int) + max_nvm_string_length) * refnum` as in `set_key`. -/
def getAddress (refnum : Nat) : Nat := (4 + max_nvm_string_length) * refnum

/-- `BLEParamStore::set_key`: reject unknown keys with `false`; truncate
the value to `max_nvm_string_length` bytes (`value.substring(0, 28)`)
when `value.length() < max_nvm_string_length` fails; write the length
field at the slot address and the bytes at that address + 4; return
`true`. -/
def set_key (key : String) (value : Value) (nvm : NVM) : Bool × NVM :=
  let refnum := match_key key
  if refnum < 0 then
    (false, nvm)
  else
    let write_str : Value :=
      if value.length < max_nvm_string_length then value
      else value.take max_nvm_string_length
    let address := setAddress refnum.toNat
    (true,
      writeBytesNVM (writeLenNVM nvm address (write_str.length : Int))
        (address + 4) write_str)

/-- `BLEParamStore::get_key`: reject unknown keys with `false` and the
output parameter untouched; otherwise read the slot's length field, read
that many bytes into `uint8_t buffer[max_nvm_string_length + 1]`, write
`buffer[length] = 0`, and return `true` with
`value = String((const char*) buffer)`, i.e. the bytes up to the first
NUL.  When the stored length field is outside 0..28 these buffer accesses
leave the 29-byte local array (`buffer[length]` needs `length ≤ 28`), so
the model yields `none` there: the C++ behaviour is undefined. -/
def get_key (key : String) (nvm : NVM) (out : Value) :
    Option (Bool × Value) :=
  let refnum := match_key key
  if refnum < 0 then
    some (false, out)
  else
    let address := getAddress refnum.toNat
    let length := nvm.lenField address
    if 0 ≤ length ∧ length ≤ (max_nvm_string_length : Int) then
      some (true,
        (readBytesNVM nvm (address + 4) length.toNat).takeWhile
          (fun b => b ≠ 0))
    else
      none

end BLEParamStore

/-- Folds a sequence of `SetKey` calls over the slot-backend NVM state
(each `ParamStore::SetKey` is a pure delegation to `set_key`). -/
def applySets : List (String × Value) → NVM → NVM
  | [], nvm => nvm
  | op :: rest, nvm => applySets rest (BLEParamStore.set_key op.1 op.2 nvm).2

/-- An NVM whose every length field holds 29, as uninitialised hardware
may: one past what the 29-byte read buffer of `get_key` can take. -/
def garbageNVM : NVM := ⟨fun _ => 29, fun _ => 65⟩

/-! ## Helper lemmas -/

/-- Writing data bytes does not change any length field. -/
theorem lenField_writeBytesNVM (nvm : NVM) (addr : Nat) (bs : Value) :
    (writeBytesNVM nvm addr bs).lenField = nvm.lenField := rfl

/-- Writing a length field does not change any data byte. -/
theorem byte_writeLenNVM (nvm : NVM) (addr : Nat) (v : Int) :
    (writeLenNVM nvm addr v).byte = nvm.byte := rfl

/-- The length field just written. -/
theorem lenField_writeLenNVM_same (nvm : NVM) (addr : Nat) (v : Int) :
    (writeLenNVM nvm addr v).lenField addr = v := by
  simp [writeLenNVM]

/-- Reading back the bytes just written returns them unchanged, provided
they were bytes (below 256). -/
theorem readBytesNVM_writeBytesNVM (nvm : NVM) (addr : Nat) (bs : Value)
    (hb : ∀ b ∈ bs, b < 256) :
    readBytesNVM (writeBytesNVM nvm addr bs) addr bs.length = bs := by
  apply List.ext_getElem
  · simp [readBytesNVM]
  · intro i h1 h2
    simp only [readBytesNVM, writeBytesNVM, List.getElem_map, List.getElem_range]
    have hi : i < bs.length := by simpa [readBytesNVM] using h1
    have hcond : addr ≤ addr + i ∧ addr + i - addr < bs.length := by omega
    rw [if_pos hcond]
    have : addr + i - addr = i := by omega
    rw [this, List.getD_eq_getElem bs 0 hi]
    exact Nat.mod_eq_of_lt (hb _ (List.getElem_mem hi))

/-- `takeWhile (b ≠ 0)` keeps a NUL-free byte list whole. -/
theorem takeWhile_ne_zero (bs : Value) (h : ∀ b ∈ bs, 0 < b) :
    bs.takeWhile (fun b => b ≠ 0) = bs := by
  induction bs with
  | nil => rfl
  | cons a t ih =>
    have ha : 0 < a := h a (by simp)
    have ht : ∀ b ∈ t, 0 < b := fun b hb => h b (by simp [hb])
    rw [List.takeWhile_cons, if_pos (by simpa using Nat.pos_iff_ne_zero.mp ha),
      ih ht]

/-- The truncation in `set_key` always stores the first
`max_nvm_string_length` bytes: when `value.length() < max_nvm_string_length`
holds the value is its own 28-byte prefix. -/
theorem write_str_eq_take (v : Value) :
    (if v.length < BLEParamStore.max_nvm_string_length then v
     else v.take BLEParamStore.max_nvm_string_length) =
      v.take BLEParamStore.max_nvm_string_length := by
  split
  · exact (List.take_of_length_le (by omega)).symm
  · rfl

/-- Round trip on the slot backend: for a recognised key, `get_key` after
`set_key` returns the stored 28-byte-truncated value, provided that value
is made of nonzero bytes (an Arduino `String` is a C string: the
`String((const char*) buffer)` constructor in `get_key` stops at the
first NUL byte). -/
theorem ble_get_after_set (k : String) (v : Value) (nvm : NVM) (out : Value)
    (hk : 0 ≤ BLEParamStore.match_key k)
    (hb : ∀ b ∈ v.take BLEParamStore.max_nvm_string_length, 0 < b ∧ b < 256) :
    BLEParamStore.get_key k (BLEParamStore.set_key k v nvm).2 out =
      some (true, v.take BLEParamStore.max_nvm_string_length) := by
  have hlt : ¬ BLEParamStore.match_key k < 0 := by omega
  have hga : BLEParamStore.getAddress (BLEParamStore.match_key k).toNat =
      BLEParamStore.setAddress (BLEParamStore.match_key k).toNat := rfl
  unfold BLEParamStore.get_key BLEParamStore.set_key
  simp only [if_neg hlt, write_str_eq_take, hga]
  have hlenf :
      (writeBytesNVM
          (writeLenNVM nvm (BLEParamStore.setAddress (BLEParamStore.match_key k).toNat)
            ((v.take BLEParamStore.max_nvm_string_length).length : Int))
          (BLEParamStore.setAddress (BLEParamStore.match_key k).toNat + 4)
          (v.take BLEParamStore.max_nvm_string_length)).lenField
        (BLEParamStore.setAddress (BLEParamStore.match_key k).toNat) =
      ((v.take BLEParamStore.max_nvm_string_length).length : Int) := by
    rw [lenField_writeBytesNVM, lenField_writeLenNVM_same]
  rw [hlenf]
  have htk : (v.take BLEParamStore.max_nvm_string_length).length ≤ 28 := by
    simp [BLEParamStore.max_nvm_string_length]
  rw [if_pos (by constructor <;> [positivity ; exact_mod_cast htk])]
  rw [Int.toNat_natCast]
  rw [readBytesNVM_writeBytesNVM _ _ _ (fun b hbmem => (hb b hbmem).2)]
  rw [takeWhile_ne_zero _ (fun b hbmem => (hb b hbmem).1)]

/-- Every slot's length field is between 0 and 28. -/
def LenInv (nvm : NVM) : Prop :=
  ∀ i < 5, 0 ≤ nvm.lenField (BLEParamStore.setAddress i)
    ∧ nvm.lenField (BLEParamStore.setAddress i) ≤ 28

/-- `set_key` preserves the length-field invariant: it writes either
nothing (unknown key) or the length of the truncated value, which is at
most 28. -/
theorem set_key_preserves_LenInv (k : String) (v : Value) (nvm : NVM)
    (h : LenInv nvm) : LenInv (BLEParamStore.set_key k v nvm).2 := by
  by_cases hk : BLEParamStore.match_key k < 0
  · simpa [BLEParamStore.set_key, if_pos hk] using h
  · intro i hi
    simp only [BLEParamStore.set_key, if_neg hk, write_str_eq_take,
      lenField_writeBytesNVM, writeLenNVM]
    split
    · have htk : (v.take BLEParamStore.max_nvm_string_length).length ≤ 28 := by
        simp [BLEParamStore.max_nvm_string_length]
      constructor
      · positivity
      · exact_mod_cast htk
    · exact h i hi

/-- Any sequence of `set_key` calls preserves the invariant. -/
theorem applySets_LenInv (ops : List (String × Value)) (nvm : NVM)
    (h : LenInv nvm) : LenInv (applySets ops nvm) := by
  induction ops generalizing nvm with
  | nil => exact h
  | cons op rest ih =>
    exact ih _ (set_key_preserves_LenInv op.1 op.2 nvm h)

/-! ## Claim theorems -/

/-- Claim C1: for every recognized key and every value within the active
backend's length limit (any string for the filesystem backend; length at
most 28 for the slot backend), if `SetKey(k, v)` returns true then a
subsequent `GetKey(k, out)` returns true and sets `out` exactly equal to
`v`.  `ParamStore::SetKey` / `GetKey` are pure delegations to the
backend's `set_key` / `get_key`.  For the slot backend the value bytes
are required to be nonzero bytes: an Arduino `String` is a C string and
`get_key` rebuilds the value with the C-string constructor. -/
theorem C1_set_get_roundtrip (k : String) (v : Value) :
    (∀ (ok : Bool) (fs fs1 : SPIFFS),
        SPIFSParamStore.set_key k v ok fs = (true, fs1) →
        ∀ out, SPIFSParamStore.get_key k fs1 out = (true, v))
    ∧ (v.length ≤ BLEParamStore.max_nvm_string_length →
        (∀ b ∈ v, 0 < b ∧ b < 256) →
        ∀ (nvm nvm1 : NVM), BLEParamStore.set_key k v nvm = (true, nvm1) →
        ∀ out, BLEParamStore.get_key k nvm1 out = some (true, v)) := by
  constructor
  · intro ok fs fs1 hset out
    cases ok with
    | false => simp [SPIFSParamStore.set_key] at hset
    | true =>
      simp only [SPIFSParamStore.set_key, if_true, Prod.mk.injEq, true_and] at hset
      subst hset
      simp [SPIFSParamStore.get_key]
  · intro hlen hv nvm nvm1 hset out
    by_cases hk : BLEParamStore.match_key k < 0
    · exfalso
      simp only [BLEParamStore.set_key, if_pos hk, Prod.mk.injEq] at hset
      exact Bool.noConfusion hset.1
    · have hk0 : 0 ≤ BLEParamStore.match_key k := by omega
      have hnvm1 : nvm1 = (BLEParamStore.set_key k v nvm).2 := by rw [hset]
      have hb : ∀ b ∈ v.take BLEParamStore.max_nvm_string_length,
          0 < b ∧ b < 256 := fun b hbm => hv b (List.take_subset _ _ hbm)
      rw [hnvm1, ble_get_after_set k v nvm out hk0 hb,
        List.take_of_length_le hlen]

/-- Witness for C1 at key `ssid`, value `[104, 105]`, on a fresh
filesystem and a zeroed NVM. -/
theorem C1_set_get_roundtrip_witness :
    SPIFSParamStore.get_key ("ssid")
        (SPIFSParamStore.set_key ("ssid") ([104, 105]) true emptyFS).2 [] =
      (true, [104, 105])
    ∧ BLEParamStore.get_key ("ssid")
        (BLEParamStore.set_key ("ssid") ([104, 105]) initNVM).2 [] =
      some (true, [104, 105]) := by
  constructor
  · exact (C1_set_get_roundtrip ("ssid") ([104, 105])).1 true emptyFS _ rfl []
  · exact (C1_set_get_roundtrip ("ssid") ([104, 105])).2 (by decide)
      (by decide) initNVM _ rfl []

/-- Claim C2 as stated is false at a concrete input: for the unrecognised
key `bogus`, `set_key` and `get_key` both return false without touching
the NVM, but the failed `get_key` returns before ever assigning to the
output parameter, so `out` keeps its previous contents `[120]` instead of
being cleared to the empty string. -/
theorem C2_unknown_key_counterexample :
    BLEParamStore.set_key ("bogus") ([120]) initNVM = (false, initNVM)
    ∧ BLEParamStore.get_key ("bogus") initNVM [120] = some (false, [120])
    ∧ ([120] : Value) ≠ [] :=
  ⟨rfl, rfl, by decide⟩

/-- Claim C2, amended: for the slot backend and every key outside the
fixed five-name set, `SetKey` returns false and `GetKey` returns false,
neither operation touches the NVM hardware (the state is returned
unchanged and the get result is the same for every NVM state), and the
failed `GetKey` leaves the output parameter unchanged (it is not
cleared). -/
theorem C2_unknown_key_amended (k : String)
    (hk : BLEParamStore.match_key k < 0) (v : Value) (nvm : NVM)
    (out : Value) :
    BLEParamStore.set_key k v nvm = (false, nvm)
    ∧ BLEParamStore.get_key k nvm out = some (false, out) := by
  constructor
  · simp [BLEParamStore.set_key, if_pos hk]
  · simp [BLEParamStore.get_key, if_pos hk]

/-- Witness for the amended C2 at the unrecognised key `bogus`. -/
theorem C2_unknown_key_amended_witness :
    BLEParamStore.set_key ("bogus") ([7]) initNVM = (false, initNVM)
    ∧ BLEParamStore.get_key ("bogus") initNVM [7] = some (false, [7]) :=
  C2_unknown_key_amended ("bogus") (by decide) ([7]) initNVM [7]

/-- Claim C3: for the slot backend, for every recognized key and every
value longer than 28 bytes, `SetKey` returns true without error, and a
subsequent `GetKey` returns true with exactly the first 28 characters of
the value (whose bytes are required nonzero, as in C1). -/
theorem C3_truncation (k : String) (v : Value)
    (hk : 0 ≤ BLEParamStore.match_key k)
    (hlen : BLEParamStore.max_nvm_string_length < v.length)
    (hv : ∀ b ∈ v.take BLEParamStore.max_nvm_string_length, 0 < b ∧ b < 256)
    (nvm : NVM) :
    (BLEParamStore.set_key k v nvm).1 = true
    ∧ ∀ out, BLEParamStore.get_key k (BLEParamStore.set_key k v nvm).2 out =
        some (true, v.take BLEParamStore.max_nvm_string_length) := by
  have hlt : ¬ BLEParamStore.match_key k < 0 := by omega
  constructor
  · simp [BLEParamStore.set_key, if_neg hlt]
  · intro out
    exact ble_get_after_set k v nvm out hk hv

/-- Witness for C3 at key `adname` and a 29-byte value. -/
theorem C3_truncation_witness :
    (BLEParamStore.set_key ("adname") (List.replicate 29 104) initNVM).1 =
      true
    ∧ BLEParamStore.get_key ("adname")
        (BLEParamStore.set_key ("adname") (List.replicate 29 104) initNVM).2
        [] =
      some (true,
        (List.replicate 29 104).take BLEParamStore.max_nvm_string_length) := by
  have h := C3_truncation ("adname") (List.replicate 29 104) (by decide)
    (by decide) (by decide) initNVM
  exact ⟨h.1, h.2 []⟩

/-- Claim C4 fails on the code: `get_key` passes the stored length field
to `readNVM` and writes the terminator at `buffer[length]` without any
bound check, so a stored length of 29 already sends the terminator one
past the end of the 29-byte local buffer (the model returns `none` for
that out-of-bounds access), while a stored length of 28 stays within it.
The claim (and the spec sentence it comes from) says the read is bounded
by the maximum length for every value of the stored length field. -/
theorem C4_unbounded_length_overflow :
    BLEParamStore.get_key ("idstring") garbageNVM [] = none
    ∧ BLEParamStore.get_key ("idstring") (writeLenNVM garbageNVM 0 28) [] ≠
        none :=
  ⟨by decide, by decide⟩

/-- Claim C5: the slot offsets computed for the five recognized keys in
the fixed order idstring, adname, ssid, password, ipaddress are exactly
0, 32, 64, 96, 128 — strictly increasing multiples of
`(sizeof(int) + max_nvm_string_length) = 4 + 28 = 32` starting at 0 — and
`set_key` and `get_key` use the same offset expression. -/
theorem C5_slot_offsets :
    ([("idstring" : String), ("adname"), ("ssid"), ("password"),
        ("ipaddress")].map
        (fun k => BLEParamStore.setAddress (BLEParamStore.match_key k).toNat) =
      [0, 32, 64, 96, 128])
    ∧ ([("idstring" : String), ("adname"), ("ssid"), ("password"),
        ("ipaddress")].map
        (fun k => BLEParamStore.getAddress (BLEParamStore.match_key k).toNat) =
      [0, 32, 64, 96, 128])
    ∧ [0, 32, 64, 96, 128] =
        (List.range 5).map
          (fun i => (4 + BLEParamStore.max_nvm_string_length) * i)
    ∧ List.Chain' (fun x y => x < y) [0, 32, 64, 96, 128]
    ∧ 4 + BLEParamStore.max_nvm_string_length = 32
    ∧ ∀ r : Nat, BLEParamStore.setAddress r = BLEParamStore.getAddress r :=
  ⟨by decide, by decide, by decide, by norm_num [List.chain'_cons], rfl,
    fun _ => rfl⟩

/-- Claim C6: for the filesystem backend, for every key whose file does
not exist, `GetKey` returns false and clears the output to the empty
string. -/
theorem C6_missing_file_get (k : String) (fs : SPIFFS) (out : Value)
    (h : fs.files (paramPath k) = none) :
    SPIFSParamStore.get_key k fs out = (false, []) := by
  unfold SPIFSParamStore.get_key
  rw [h]

/-- Witness for C6 at key `neverset` on a fresh filesystem. -/
theorem C6_missing_file_get_witness :
    SPIFSParamStore.get_key ("neverset") emptyFS [3] = (false, []) :=
  C6_missing_file_get ("neverset") emptyFS [3] rfl

/-- Claim C7: for the filesystem backend, two successful `SetKey` calls
on the same key followed by `GetKey` yield exactly the second value, with
no leftover bytes from the first: each set overwrites (truncates) the
key's file. -/
theorem C7_overwrite_semantics (k : String) (v1 v2 : Value) (ok1 ok2 : Bool)
    (fs fs1 fs2 : SPIFFS)
    (h1 : SPIFSParamStore.set_key k v1 ok1 fs = (true, fs1))
    (h2 : SPIFSParamStore.set_key k v2 ok2 fs1 = (true, fs2)) (out : Value) :
    SPIFSParamStore.get_key k fs2 out = (true, v2) := by
  cases ok2 with
  | false => simp [SPIFSParamStore.set_key] at h2
  | true =>
    simp only [SPIFSParamStore.set_key, if_true, Prod.mk.injEq, true_and]
      at h2
    subst h2
    simp [SPIFSParamStore.get_key]

/-- Witness for C7: set `idstring` to `[97]`, then `[98, 98]`; get
returns `[98, 98]`. -/
theorem C7_overwrite_semantics_witness :
    SPIFSParamStore.get_key ("idstring")
        (SPIFSParamStore.set_key ("idstring") ([98, 98]) true
          (SPIFSParamStore.set_key ("idstring") ([97]) true emptyFS).2).2 [] =
      (true, [98, 98]) :=
  C7_overwrite_semantics ("idstring") ([97]) ([98, 98]) true true emptyFS _ _
    rfl rfl []

/-- Claim C8: in every NVM state reachable from the initial (zeroed)
state by any finite sequence of `SetKey` operations, the length field
stored in every slot is at most 28 (and nonnegative). -/
theorem C8_length_invariant (ops : List (String × Value)) (i : Nat)
    (hi : i < 5) :
    0 ≤ (applySets ops initNVM).lenField (BLEParamStore.setAddress i)
    ∧ (applySets ops initNVM).lenField (BLEParamStore.setAddress i) ≤ 28 :=
  applySets_LenInv ops initNVM
    (fun _ _ => ⟨by norm_num [initNVM], by norm_num [initNVM]⟩) i hi

/-- Witness for C8: one oversized set of `password`, slot 3. -/
theorem C8_length_invariant_witness :
    0 ≤ (applySets [(("password"), List.replicate 40 65)] initNVM).lenField
        (BLEParamStore.setAddress 3)
    ∧ (applySets [(("password"), List.replicate 40 65)] initNVM).lenField
        (BLEParamStore.setAddress 3) ≤ 28 :=
  C8_length_invariant ([(("password"), List.replicate 40 65)]) 3
    (by norm_num)

/-- Claim C10: for the slot backend and every recognized key, `get_key`
never reports failure: whenever it completes (defined behaviour) the
returned flag is true, and for every in-range stored length field it
returns true together with whatever bytes sit in that slot's NVM region,
up to the first NUL — even when the key was never set. -/
theorem C10_recognized_get_never_fails (k : String)
    (hk : 0 ≤ BLEParamStore.match_key k) (nvm : NVM) (out : Value) :
    (∀ b w, BLEParamStore.get_key k nvm out = some (b, w) → b = true)
    ∧ (0 ≤ nvm.lenField
          (BLEParamStore.getAddress (BLEParamStore.match_key k).toNat) →
       nvm.lenField
           (BLEParamStore.getAddress (BLEParamStore.match_key k).toNat) ≤
         (BLEParamStore.max_nvm_string_length : Int) →
       BLEParamStore.get_key k nvm out =
         some (true,
           (readBytesNVM nvm
               (BLEParamStore.getAddress (BLEParamStore.match_key k).toNat +
                 4)
               (nvm.lenField
                   (BLEParamStore.getAddress
                     (BLEParamStore.match_key k).toNat)).toNat).takeWhile
             (fun b => b ≠ 0))) := by
  have hlt : ¬ BLEParamStore.match_key k < 0 := by omega
  constructor
  · intro b w hbw
    simp only [BLEParamStore.get_key, if_neg hlt] at hbw
    split at hbw
    · simp only [Option.some.injEq, Prod.mk.injEq] at hbw
      exact hbw.1.symm
    · exact Option.noConfusion hbw
  · intro h0 h28
    simp only [BLEParamStore.get_key, if_neg hlt]
    rw [if_pos ⟨h0, h28⟩]

/-- Witness for C10 at key `ipaddress` on a zeroed NVM where it was never
set: get succeeds with the empty value. -/
theorem C10_recognized_get_never_fails_witness :
    BLEParamStore.get_key ("ipaddress") initNVM [9] = some (true, []) := by
  have h := (C10_recognized_get_never_fails ("ipaddress") (by decide)
    initNVM [9]).2 (by decide) (by decide)
  exact h.trans (by decide)

/-- Claim C9: for the filesystem backend, when `set_key` fails to open
the key's file for writing, `SetKey` returns false and both the stored
file and the value `GetKey` returns for that key are unchanged (the
function returns before any write). -/
theorem C9_failed_open_preserves (k : String) (v : Value) (fs : SPIFFS) :
    SPIFSParamStore.set_key k v false fs = (false, fs)
    ∧ ∀ out,
        SPIFSParamStore.get_key k (SPIFSParamStore.set_key k v false fs).2
          out =
        SPIFSParamStore.get_key k fs out :=
  ⟨rfl, fun _ => rfl⟩

end ParamStoreModel
